import Mathlib

/-!
# monovm-embed-sample: the manifest resolver and the thread-attach protocol

A shallow embedding of `src/native/main.cpp`:

* `build_tpa_list` (lines 112-216) with the helpers it uses
  (`util::lowercase`, `util::ssprintf`, `json_get_opt`, the `GET_BREAK` and
  `GET_CONT` statement expressions, the `tpa_append` closure);
* `run_something` (lines 310-372).

The program is built against three libraries whose behaviour the source relies
on.  Their relevant behaviour is written out here as definitions:

* `nlohmann::json` (the default `basic_json`): an object is a
  `std::map<std::string, json>`, so `items()` walks an object in ascending key
  order; converting a value that is not a string to `std::string` throws
  `type_error` (302);
* `std::filesystem::path` in its POSIX form (the `#else` branch of the
  `_WIN32` tests, separator `:`), as implemented by libstdc++;
* the C library: `%s` prints a `c_str()` up to its first NUL, `tolower` is the
  "C" locale one.

`std::string` is embedded as `String`.  A Lean character is a code point where
C++ has bytes; for the operations used here (suffix test against an ASCII
suffix, search for `/`, ASCII case folding, lexicographic comparison) UTF-8
makes the two agree.
-/

namespace MonoEmbed

/-! ## Strings -/

/-- The C function `tolower` in the "C" locale: `A`..`Z` go to `a`..`z`. -/
def tolower (c : Char) : Char :=
  if 65 ≤ c.toNat ∧ c.toNat ≤ 90 then Char.ofNat (c.toNat + 32) else c

/-- The function `util::lowercase` (lines 42-49): `std::transform` with `tolower`. -/
def lowercase (s : String) : String :=
  ⟨s.data.map tolower⟩

/-- The member `std::string::ends_with`. -/
def ends_with (s suffix : String) : Bool :=
  suffix.data.isSuffixOf s.data

/-- The member `std::string::find(char)`: the index of the first occurrence,
`none` standing for `std::string::npos`. -/
def find (s : String) (c : Char) : Option Nat :=
  if s.data.indexOf c < s.data.length then some (s.data.indexOf c) else none

/-- The call `s.substr(pos, n)`. -/
def substr (s : String) (pos n : Nat) : String :=
  ⟨(s.data.drop pos).take n⟩

/-- The call `s.substr(pos)`: everything from `pos` on. -/
def substr_from (s : String) (pos : Nat) : String :=
  ⟨s.data.drop pos⟩

/-- What `%s` prints for `s.c_str()`: the characters before the first NUL. -/
def c_str (s : String) : String :=
  ⟨s.data.takeWhile (fun c => c != Char.ofNat 0)⟩

/-- The call `util::ssprintf("%s, Version=%s", a.c_str(), b.c_str())` of lines 168-170. -/
def ssprintf_fqdn (a b : String) : String :=
  c_str a ++ ", Version=" ++ c_str b

/-- The call `util::ssprintf("%s/%s", a.c_str(), b.c_str())` of lines 187-189. -/
def ssprintf_key (a b : String) : String :=
  c_str a ++ "/" ++ c_str b

/-- The comparison `operator<` of two `std::string` values on their characters:
lexicographic, a proper initial part being smaller. -/
def chars_lt : List Char → List Char → Bool
  | _, [] => false
  | [], _ :: _ => true
  | a :: as, b :: bs =>
    if a.toNat < b.toNat then true
    else if b.toNat < a.toNat then false
    else chars_lt as bs

/-- The comparison `std::less<>` that orders the keys of a `std::map<std::string, json>`. -/
def string_lt (a b : String) : Bool :=
  chars_lt a.data b.data

/-! ## Paths (`std::filesystem::path`, POSIX) -/

/-- The macro `PATH_SEP_CHAR` of the non-Windows build (line 24, and line 125). -/
def PATH_SEP_CHAR : Char := ':'

/-- The member `path::has_relative_path`: something other than separators is there. -/
def has_relative_path (p : String) : Bool :=
  p.data.any (fun c => c != '/')

/-- The member `path::has_filename`: the path is not empty and does not end in `/`. -/
def has_filename (p : String) : Bool :=
  match p.data.reverse with
  | [] => false
  | c :: _ => c != '/'

/-- The member `path::is_absolute`: on POSIX, the path starts with `/`. -/
def is_absolute (p : String) : Bool :=
  match p.data with
  | [] => false
  | c :: _ => c == '/'

/-- The member `path::parent_path`: a path without a relative part is its own
parent; otherwise the last element is removed together with the separators in
front of it, a root directory staying as `/`. -/
def parent_path (p : String) : String :=
  if has_relative_path p then
    let t := p.data.reverse.dropWhile (fun c => c != '/')
    let u := t.dropWhile (fun c => c == '/')
    match u, t with
    | [], [] => ""
    | [], _ :: _ => "/"
    | _ :: _, _ => ⟨u.reverse⟩
  else p

/-- The operator `p / q` followed by `.string()`: an absolute `q` replaces `p`,
an empty `p` gives `q`, otherwise `q` is appended, after a `/` when `p` ends in
a file name. -/
def path_append (p q : String) : String :=
  if is_absolute q || p.data.isEmpty then q
  else if has_filename p then p ++ "/" ++ q
  else p ++ q

/-! ## The JSON document (`nlohmann::json`) -/

/-- A value of `nlohmann::json`.  The payload of a number is never read by the
program, so one integer constructor stands for the three number kinds. -/
inductive Json where
  | null
  | boolean (b : Bool)
  | number (n : Int)
  | string (s : String)
  | array (elems : List Json)
  | object (members : List (String × Json))

/-- What can go wrong in `build_tpa_list` besides a `break`. -/
inductive Fault where
  /-- The exception `nlohmann::json::type_error` (302, "type must be string"). -/
  | type_error
  /-- Line 156 reads `project_node->first` of an empty `std::optional`. -/
  | empty_optional
  deriving DecidableEq, Repr

/-- The range `j.items()`: the members of an object, the elements of an array
under their decimal index, nothing for `null`, and any other value once under
the empty key. -/
def Json.items : Json → List (String × Json)
  | .object members => members
  | .array elems => elems.enum.map (fun ie => (toString ie.1, ie.2))
  | .null => []
  | j => [("", j)]

/-- The function `json_get_opt<nlohmann::json>` (lines 65-71): `contains` is
false for anything but an object. -/
def json_get_opt (j : Json) (key : String) : Option Json :=
  match j with
  | .object members => members.lookup key
  | _ => none

/-- The conversion of a `json` to `std::string` (`get<std::string>()`): it
throws `type_error` unless the value is a string; `null` throws like a number. -/
def get_string : Json → Except Fault String
  | .string s => .ok s
  | _ => .error .type_error

/-- The function `json_get_opt<std::string>` (lines 65-71): the value found is
converted on return. -/
def json_get_opt_string (j : Json) (key : String) : Except Fault (Option String) :=
  match json_get_opt j key with
  | none => .ok none
  | some v =>
    match get_string v with
    | .ok s => .ok (some s)
    | .error e => .error e

/-- The insertion `m[k] = v` into the `std::map` behind an object: the entry
goes to its place in ascending key order, a key already there keeps its place
and takes the new value. -/
def map_insert (k : String) (v : Json) : List (String × Json) → List (String × Json)
  | [] => [(k, v)]
  | (k1, v1) :: rest =>
    if string_lt k k1 then (k, v) :: (k1, v1) :: rest
    else if k = k1 then (k, v) :: rest
    else (k1, v1) :: map_insert k v rest

/-- The object the parser builds from the members of an object in the order of
the manifest text: each one is inserted in turn. -/
def parse_object (members : List (String × Json)) : Json :=
  .object (members.foldl (fun m kv => map_insert kv.1 kv.2 m) [])

/-! ## `build_tpa_list` -/

/-- The struct `ctx` (lines 93-97); a default-constructed one has three empty strings. -/
structure ctx where
  main_asm_name : String := ""
  main_asm_fqdn : String := ""
  tpa_list : String := ""
  deriving DecidableEq, Repr

/-- The two locals the closure `tpa_append` captures: the stream `tpa` and the
flag `tpa_first` (lines 116-117). -/
structure Tpa where
  tpa : String
  tpa_first : Bool
  deriving DecidableEq, Repr

/-- The closure `tpa_append` (lines 118-129). -/
def tpa_append (st : Tpa) (itm : String) : Tpa :=
  if st.tpa_first then { tpa := st.tpa ++ itm, tpa_first := false }
  else { tpa := (st.tpa.push PATH_SEP_CHAR) ++ itm, tpa_first := false }

/-- The loop of lines 174-179 (the same loop stands at 196-201 and 204-209):
every key whose lowercase form ends in `.dll` is appended, joined to `deps_dir`. -/
def append_libs (deps_dir : String) : List (String × Json) → Tpa → Tpa
  | [], st => st
  | (lib_name, _) :: rest, st =>
    if ends_with (lowercase lib_name) ".dll" then
      append_libs deps_dir rest (tpa_append st (path_append deps_dir lib_name))
    else append_libs deps_dir rest st

/-- The loop of lines 147-155 over `libraries.items()`, started with
`project_node` empty.  `GETS_C` continues on an entry without `type` and throws
on a `type` that is not a string. -/
def find_project (project_node : Option (String × Json)) :
    List (String × Json) → Except Fault (Option (String × Json))
  | [] => .ok project_node
  | (lib_name, lib_item) :: rest =>
    match json_get_opt_string lib_item "type" with
    | .error e => .error e
    | .ok none => find_project project_node rest
    | .ok (some lib_type) =>
      if project_node.isNone && lib_type == "project" then .ok (some (lib_name, lib_item))
      else find_project project_node rest

/-- The loop of lines 183-211 over `project_deps.items()`. -/
def process_deps (deps_dir : String) (framework_target : Json) :
    List (String × Json) → Tpa → Except Fault Tpa
  | [], st => .ok st
  | (item_name, value) :: rest, st =>
    match get_string value with
    | .error e => .error e
    | .ok item_version =>
      match json_get_opt framework_target (ssprintf_key item_name item_version) with
      | none => process_deps deps_dir framework_target rest st
      | some target_item =>
        let st1 :=
          match json_get_opt target_item "runtime" with
          | some target_runtime => append_libs deps_dir target_runtime.items st
          | none => st
        let st2 :=
          match json_get_opt target_item "native" with
          | some target_native => append_libs deps_dir target_native.items st1
          | none => st1
        process_deps deps_dir framework_target rest st2

/-- Lines 214-215: the stream becomes `tpa_list` and the context is returned. -/
def finish (result : ctx) (st : Tpa) : Except Fault ctx :=
  .ok { result with tpa_list := st.tpa }

/-- Lines 156-211, entered with an entry in `project_node`: the rest of the
`do ... while(false)` block.  Each `none` branch of a lookup is the `break` of
`GET_BREAK`, which leaves the block for lines 214-215. -/
def project_pass (deps_dir : String) (framework_target : Json) (project_node : String × Json)
    (result : ctx) (tpa : Tpa) : Except Fault ctx :=
  let result1 := { result with main_asm_name := project_node.1 }
  match json_get_opt framework_target project_node.1 with
  | none => finish result1 tpa
  | some project_target =>
  match find project_node.1 '/' with
  | none => finish result1 tpa
  | some slash =>
  let result2 := { result1 with
    main_asm_fqdn := ssprintf_fqdn (substr project_node.1 0 slash)
      (substr_from project_node.1 (slash + 1)) }
  match json_get_opt project_target "runtime" with
  | none => finish result2 tpa
  | some project_rt =>
  let tpa1 := append_libs deps_dir project_rt.items tpa
  match json_get_opt project_target "dependencies" with
  | none => finish result2 tpa1
  | some project_deps =>
  match process_deps deps_dir framework_target project_deps.items tpa1 with
  | .error e => .error e
  | .ok tpa2 => finish result2 tpa2

/-- The function `build_tpa_list` (lines 112-216).  Each `none` branch of a
lookup is the `break` of `GET_BREAK`.  Line 156 reads `project_node->first`
before line 158 tests `has_value()`, so a scan that found nothing ends in the
read of an empty optional. -/
def build_tpa_list (depsFile : String) (deps : Json) : Except Fault ctx :=
  let deps_dir := parent_path depsFile
  let tpa : Tpa := { tpa := "", tpa_first := true }
  let result : ctx := {}
  match json_get_opt deps "runtimeTarget" with
  | none => finish result tpa
  | some runtimeTarget =>
  match json_get_opt_string runtimeTarget "name" with
  | .error e => .error e
  | .ok none => finish result tpa
  | .ok (some runtimeTarget_name) =>
  match json_get_opt deps "targets" with
  | none => finish result tpa
  | some all_targets =>
  match json_get_opt all_targets runtimeTarget_name with
  | none => finish result tpa
  | some framework_target =>
  match json_get_opt deps "libraries" with
  | none => finish result tpa
  | some libraries =>
  match find_project none libraries.items with
  | .error e => .error e
  | .ok none => .error .empty_optional
  | .ok (some project_node) => project_pass deps_dir framework_target project_node result tpa

/-! ## `run_something` -/

/-- An opaque native handle (`MonoThread *`, `MonoClass *`, `MonoMethod *`, `MonoObject *`). -/
abbrev Handle := Nat

/-- A call of the attach protocol, with what the runtime returned. -/
inductive Call where
  /-- The call `mono_thread_attach (mono_get_root_domain ())` and the thread it returned. -/
  | attach (thread : Handle)
  /-- The call `mono_runtime_invoke (method, obj, args, NULL)` and the object it
  returned; `none` is `NULL`. -/
  | invoke (method : Handle) (obj : Option Handle) (ret : Option Handle)
  /-- The call `mono_thread_detach (thread)`. -/
  | detach (thread : Handle)
  deriving DecidableEq, Repr

/-- The answers of the Mono runtime.  The lookups are reads; what an attach or
an invocation returns may depend on every call made before it.  An attach
returns a thread handle that is not `NULL`. -/
structure Runtime where
  class_from_name : String → String → Option Handle
  get_method : Handle → String → Option Handle
  attach_ret : List Call → Handle
  invoke_ret : List Call → Handle → Option Handle → Option Handle

/-- The function `run_something` (lines 310-372) on the thread `self`, the
global `main_thread` given: the calls made, in order, and the value returned. -/
def run_something (rt : Runtime) (self main_thread : Nat) : List Call × Nat :=
  let trace0 : List Call := []
  let attached1 : Option Handle × List Call :=
    if self ≠ main_thread then
      (some (rt.attach_ret trace0), trace0 ++ [Call.attach (rt.attach_ret trace0)])
    else (none, trace0)
  let trace1 := attached1.2
  match rt.class_from_name "CSharpSample" "SampleClass" with
  | none => (trace1, 1)
  | some kls =>
  match rt.get_method kls "Create" with
  | none => (trace1, 1)
  | some create =>
  let obj1 := rt.invoke_ret trace1 create none
  let trace2 := trace1 ++ [Call.invoke create none obj1]
  match rt.get_method kls "Hello" with
  | none => (trace2, 1)
  | some hello =>
  let trace3 := trace2 ++ [Call.invoke hello obj1 (rt.invoke_ret trace2 hello obj1)]
  let trace4 :=
    match attached1.1 with
    | some thread => trace3 ++ [Call.detach thread]
    | none => trace3
  let attached2 : Option Handle × List Call :=
    if self ≠ main_thread then
      (some (rt.attach_ret trace4), trace4 ++ [Call.attach (rt.attach_ret trace4)])
    else (none, trace4)
  let trace5 := attached2.2
  let obj2 := rt.invoke_ret trace5 create none
  let trace6 := trace5 ++ [Call.invoke create none obj2]
  let trace7 := trace6 ++ [Call.invoke hello obj2 (rt.invoke_ret trace6 hello obj2)]
  let trace8 :=
    match attached2.1 with
    | some thread => trace7 ++ [Call.detach thread]
    | none => trace7
  (trace8, 0)

/-! ## The specification's side -/

/-- The join of the entries with the platform separator. -/
def join_paths (entries : List String) : String :=
  String.intercalate (String.singleton PATH_SEP_CHAR) entries

/-- The keys of `mapping`, in iteration order, whose lowercase form ends in
`.dll`, each joined to the manifest directory. -/
def dll_paths (dir : String) (mapping : Json) : List String :=
  ((mapping.items.map Prod.fst).filter (fun k => ends_with (lowercase k) ".dll")).map
    (path_append dir)

/-- The entries of the sub-mapping `sub` of a target; an absent one gives none. -/
def sub_paths (dir : String) (target : Json) (sub : String) : List String :=
  match json_get_opt target sub with
  | none => []
  | some mapping => dll_paths dir mapping

/-- The dependency identity as the specification writes it: `name/version`. -/
def identity_key (name version : String) : String :=
  name ++ "/" ++ version

/-- The entries of one dependency: nothing when its identity (made by `key`) is
absent from the framework target, else its `runtime` entries and then its
`native` entries. -/
def dep_paths (key : String → String → String) (dir : String) (framework_target : Json)
    (dep : String × Json) : List String :=
  match dep.2 with
  | .string version =>
    match json_get_opt framework_target (key dep.1 version) with
    | none => []
    | some target => sub_paths dir target "runtime" ++ sub_paths dir target "native"
  | _ => []

/-- The sequence of trusted paths of a project target: empty without `runtime`,
else the project's own entries followed by those of each dependency. -/
def trusted_paths (key : String → String → String) (dir : String)
    (framework_target project_target : Json) : List String :=
  match json_get_opt project_target "runtime" with
  | none => []
  | some project_rt =>
    dll_paths dir project_rt ++
      match json_get_opt project_target "dependencies" with
      | none => []
      | some project_deps =>
        (project_deps.items.map (dep_paths key dir framework_target)).flatten

/-- The value is a JSON string. -/
def is_string : Json → Bool
  | .string _ => true
  | _ => false

/-- The library entry has the string `t` as its `type`. -/
def has_type (item : Json) (t : String) : Bool :=
  match json_get_opt item "type" with
  | some (.string s) => s == t
  | _ => false

/-- The library entry has no `type`, or a string one. -/
def type_readable (item : Json) : Bool :=
  match json_get_opt item "type" with
  | none => true
  | some v => is_string v

/-! ## Inputs used below

Each manifest is built with `parse_object` from its members in the order of the
manifest text, so it is a document the parser yields. -/

/-- A manifest with the three sections: `runtimeTarget.name` is `net1.0`, and
`targets` holds that one framework target. -/
def manifest (libraries framework_target : List (String × Json)) : Json :=
  parse_object [
    ("runtimeTarget", parse_object [("name", .string "net1.0")]),
    ("targets", parse_object [("net1.0", parse_object framework_target)]),
    ("libraries", parse_object libraries)]

/-- A library entry of the given `type`. -/
def library (type : Json) : Json :=
  parse_object [("type", type)]

/-- A mapping with the given keys, each with an empty object as value. -/
def files (keys : List String) : Json :=
  parse_object (keys.map (fun k => (k, parse_object [])))

/-- The manifest of the specification's Scenario. -/
def scenario_manifest : Json :=
  manifest [("MyApp/1.0.0", library (.string "project"))]
    [("MyApp/1.0.0", parse_object [("runtime", files ["MyApp.dll"]),
        ("dependencies", parse_object [])])]

/-- Two dependencies: `Absent/1.0.0` is not in the framework target, `Foo/2.0.0`
is, with the runtime keys `Foo.DLL` and `Foo.json`. -/
def two_dependencies_manifest : Json :=
  manifest
    [("MyApp/1.0.0", library (.string "project")), ("Absent/1.0.0", library (.string "package")),
      ("Foo/2.0.0", library (.string "package"))]
    [("MyApp/1.0.0", parse_object [("runtime", files ["MyApp.dll"]),
        ("dependencies", parse_object [("Absent", .string "1.0.0"), ("Foo", .string "2.0.0")])]),
      ("Foo/2.0.0", parse_object [("runtime", files ["Foo.DLL", "Foo.json"])])]

/-- The library `A/1.0.0`, walked before the project entry, has the number 5 as `type`. -/
def numeric_type_manifest : Json :=
  manifest [("MyApp/1.0.0", library (.string "project")), ("A/1.0.0", library (.number 5))]
    [("MyApp/1.0.0", parse_object [("runtime", files ["MyApp.dll"])])]

/-- The dependency name is `Dep`, a NUL and `x` (the JSON text `"Dep\u0000x"`). -/
def nul_dependency_manifest : Json :=
  manifest [("MyApp/1.0.0", library (.string "project"))]
    [("MyApp/1.0.0", parse_object [("runtime", files ["MyApp.dll"]),
        ("dependencies", parse_object [("Dep\x00x", .string "1.0.0")])]),
      ("Dep/1.0.0", parse_object [("runtime", files ["Dep.dll"])])]

/-- The project identity is `My`, a NUL and `App/1.0.0`. -/
def nul_identity_manifest : Json :=
  manifest [("My\x00App/1.0.0", library (.string "project"))]
    [("My\x00App/1.0.0", parse_object [("runtime", files ["MyApp.dll"])])]

/-- The version of the dependency `Dep` is the number 7. -/
def numeric_version_manifest : Json :=
  manifest [("MyApp/1.0.0", library (.string "project"))]
    [("MyApp/1.0.0", parse_object [("runtime", files ["MyApp.dll"]),
        ("dependencies", parse_object [("Dep", .number 7)])])]

/-- The project `runtime` mapping lists `B.dll` and then `A.dll`. -/
def text_order_manifest : Json :=
  manifest [("MyApp/1.0.0", library (.string "project"))]
    [("MyApp/1.0.0", parse_object [("runtime", files ["B.dll", "A.dll"])])]

/-- Only `runtimeTarget` is there, and its `name` is the number 7. -/
def numeric_name_manifest : Json :=
  parse_object [("runtimeTarget", parse_object [("name", .number 7)])]

/-- Only `libraries` is there; its project entry `MyApp` has no version. -/
def libraries_only_manifest : Json :=
  parse_object [("libraries", parse_object [("MyApp", library (.string "project"))])]

/-- The project entry `MyApp` has no version; the library `A`, walked before
it, has the number 5 as `type`. -/
def no_version_numeric_type_manifest : Json :=
  manifest [("MyApp", library (.string "project")), ("A", library (.number 5))] []

/-- The project entry `MyApp` has no version; the package `Lib/1.0.0` is walked
before it, and the framework target holds `MyApp` with a runtime library. -/
def no_version_manifest : Json :=
  manifest [("MyApp", library (.string "project")), ("Lib/1.0.0", library (.string "package"))]
    [("MyApp", parse_object [("runtime", files ["MyApp.dll"])])]

/-- The project entry `MyApp/1.0.0` is not in the framework target. -/
def project_missing_manifest : Json :=
  manifest [("MyApp/1.0.0", library (.string "project"))]
    [("Lib/1.0.0", parse_object [("runtime", files ["Lib.dll"])])]

/-- The project entry is not in the framework target, and the library
`A/1.0.0`, walked before it, has the number 5 as `type`. -/
def project_missing_numeric_type_manifest : Json :=
  manifest [("MyApp/1.0.0", library (.string "project")), ("A/1.0.0", library (.number 5))] []

/-- The three sections are there and `libraries` is empty. -/
def empty_libraries_manifest : Json :=
  manifest [] []

/-- The three sections are there; `libraries` holds a package and an entry
without `type`, and no project. -/
def no_project_manifest : Json :=
  manifest [("Lib/1.0.0", library (.string "package")), ("Other/1.0.0", parse_object [])]
    [("Lib/1.0.0", parse_object [("runtime", files ["Lib.dll"])])]

/-- The project entry is `MyApp/1.2.3`, with one runtime library and one
dependency that the framework target does not hold. -/
def version_manifest : Json :=
  manifest [("MyApp/1.2.3", library (.string "project")), ("Lib/1.0.0", library (.string "package"))]
    [("MyApp/1.2.3", parse_object [("runtime", files ["MyApp.dll"]),
      ("dependencies", parse_object [("Lib", .string "1.0.0")])])]

/-- A runtime that finds the class (handle 1) and its methods `Create`
(handle 2) and `Hello` (handle 3); the n-th call returns a handle made from n. -/
def sample_runtime : Runtime where
  class_from_name := fun _ _ => some 1
  get_method := fun _ method => if method = "Create" then some 2 else some 3
  attach_ret := fun trace => 100 + trace.length
  invoke_ret := fun trace _ _ => some (200 + trace.length)

/-! ## Lemmas on the model -/

theorem tpa_append_first (acc itm : String) :
    tpa_append ⟨acc, true⟩ itm = ⟨acc ++ itm, false⟩ := by
  simp [tpa_append]

theorem tpa_append_next (acc itm : String) :
    tpa_append ⟨acc, false⟩ itm = ⟨acc ++ String.singleton PATH_SEP_CHAR ++ itm, false⟩ := by
  simp [tpa_append]
  apply String.ext
  simp [String.push, String.singleton]

theorem foldl_tpa_next (l : List String) (acc : String) :
    (l.foldl tpa_append ⟨acc, false⟩).tpa
      = String.intercalate.go acc (String.singleton PATH_SEP_CHAR) l := by
  induction l generalizing acc with
  | nil => simp [String.intercalate.go]
  | cons a l ih => simp [String.intercalate.go, tpa_append_next, ih]

theorem foldl_tpa_first (l : List String) :
    (l.foldl tpa_append ⟨"", true⟩).tpa = join_paths l := by
  cases l with
  | nil => simp [join_paths, String.intercalate]
  | cons a l =>
    simp [join_paths, String.intercalate, tpa_append_first, foldl_tpa_next]

theorem append_libs_eq (dir : String) (items : List (String × Json)) (st : Tpa) :
    append_libs dir items st = (dll_paths dir (.object items)).foldl tpa_append st := by
  induction items generalizing st with
  | nil => simp [append_libs, dll_paths, Json.items]
  | cons kv rest ih =>
    obtain ⟨k, v⟩ := kv
    by_cases h : ends_with (lowercase k) ".dll" = true
    · simp [append_libs, h, ih, dll_paths, Json.items]
    · simp [append_libs, h, ih, dll_paths, Json.items]

theorem append_libs_mapping (dir : String) (mapping : Json) (st : Tpa) :
    append_libs dir mapping.items st = (dll_paths dir mapping).foldl tpa_append st := by
  have h := append_libs_eq dir mapping.items st
  simpa [dll_paths, Json.items] using h

theorem sub_paths_fold (dir : String) (target : Json) (sub : String) (st : Tpa) :
    (match json_get_opt target sub with
      | some m => append_libs dir m.items st
      | none => st) = (sub_paths dir target sub).foldl tpa_append st := by
  unfold sub_paths
  cases json_get_opt target sub with
  | none => simp
  | some m => simp [append_libs_mapping]

theorem process_deps_eq (dir : String) (ft : Json) (items : List (String × Json)) (st : Tpa)
    (hver : ∀ e ∈ items, is_string e.2 = true) :
    process_deps dir ft items st
      = .ok (((items.map (dep_paths ssprintf_key dir ft)).flatten).foldl tpa_append st) := by
  induction items generalizing st with
  | nil => simp [process_deps]
  | cons kv rest ih =>
    obtain ⟨k, v⟩ := kv
    have hv : is_string v = true := hver (k, v) (by simp)
    have hrest : ∀ e ∈ rest, is_string e.2 = true := fun e he => hver e (by simp [he])
    cases v with
    | string version =>
      simp only [process_deps, get_string]
      cases hk : json_get_opt ft (ssprintf_key k version) with
      | none => simp [ih _ hrest, dep_paths, hk]
      | some target =>
        simp only [sub_paths_fold]
        rw [ih _ hrest]
        simp [dep_paths, hk, List.foldl_append]
    | null => simp [is_string] at hv
    | boolean b => simp [is_string] at hv
    | number n => simp [is_string] at hv
    | array a => simp [is_string] at hv
    | object o => simp [is_string] at hv

theorem find_none_of_not_mem (s : String) (c : Char) (h : c ∉ s.data) : find s c = none := by
  unfold find
  have : s.data.indexOf c = s.data.length := List.indexOf_eq_length.mpr h
  simp [this]

theorem find_split (name version : String) (c : Char) (h : c ∉ name.data) :
    find (name ++ String.singleton c ++ version) c = some name.data.length := by
  unfold find
  have hidx : (name ++ String.singleton c ++ version).data.indexOf c = name.data.length := by
    simp only [String.data_append, String.singleton, List.append_assoc]
    rw [List.indexOf_append_of_not_mem h]
    simp
  rw [hidx]
  simp [String.singleton]

theorem substr_split (name version : String) (c : Char) :
    substr (name ++ String.singleton c ++ version) 0 name.data.length = name := by
  apply String.ext
  simp [substr, String.singleton]

theorem substr_from_split (name version : String) (c : Char) :
    substr_from (name ++ String.singleton c ++ version) (name.data.length + 1) = version := by
  apply String.ext
  have h : (name ++ String.singleton c ++ version).data
      = (name.data ++ [c]) ++ version.data := by
    simp [String.singleton]
  simp only [substr_from, h]
  exact List.drop_left' (by simp)

/-- The scan passes over entries that are readable and are not projects. -/
theorem find_project_skip (pre rest : List (String × Json))
    (hpre : ∀ e ∈ pre, has_type e.2 "project" = false ∧ type_readable e.2 = true) :
    find_project none (pre ++ rest) = find_project none rest := by
  induction pre with
  | nil => simp
  | cons kv pre ih =>
    obtain ⟨k, item⟩ := kv
    have hk := hpre (k, item) (by simp)
    have hrest : ∀ e ∈ pre, has_type e.2 "project" = false ∧ type_readable e.2 = true :=
      fun e he => hpre e (by simp [he])
    simp only [List.cons_append, find_project, json_get_opt_string]
    simp only [has_type, type_readable] at hk
    cases hget : json_get_opt item "type" with
    | none => simpa using ih hrest
    | some v =>
      rw [hget] at hk
      cases v <;> simp_all [get_string, is_string]

theorem find_project_found (pre post : List (String × Json)) (s : String) (item : Json)
    (hitem : has_type item "project" = true)
    (hpre : ∀ e ∈ pre, has_type e.2 "project" = false ∧ type_readable e.2 = true) :
    find_project none (pre ++ (s, item) :: post) = .ok (some (s, item)) := by
  rw [find_project_skip pre _ hpre]
  simp only [find_project, json_get_opt_string]
  simp only [has_type] at hitem
  cases hget : json_get_opt item "type" with
  | none => simp [hget] at hitem
  | some v =>
    rw [hget] at hitem
    cases v <;> simp_all [get_string]

/-- The pass on a project entry absent from the framework target. -/
theorem project_pass_absent (dir : String) (ft : Json) (p : String × Json)
    (h : json_get_opt ft p.1 = none) :
    project_pass dir ft p {} ⟨"", true⟩ = .ok ⟨p.1, "", ""⟩ := by
  simp [project_pass, h, finish]

theorem project_pass_no_slash (dir : String) (ft : Json) (p : String × Json)
    (h : '/' ∉ p.1.data) :
    project_pass dir ft p {} ⟨"", true⟩ = .ok ⟨p.1, "", ""⟩ := by
  unfold project_pass
  cases json_get_opt ft p.1 with
  | none => simp [finish]
  | some pt => simp [find_none_of_not_mem _ _ h, finish]

theorem project_pass_ok (dir : String) (ft pt : Json) (p : String × Json) (slash : Nat)
    (hpt : json_get_opt ft p.1 = some pt) (hslash : find p.1 '/' = some slash)
    (hver : ∀ project_rt project_deps, json_get_opt pt "runtime" = some project_rt →
      json_get_opt pt "dependencies" = some project_deps →
      ∀ e ∈ project_deps.items, is_string e.2 = true) :
    project_pass dir ft p {} ⟨"", true⟩
      = .ok ⟨p.1, ssprintf_fqdn (substr p.1 0 slash) (substr_from p.1 (slash + 1)),
          join_paths (trusted_paths ssprintf_key dir ft pt)⟩ := by
  unfold project_pass trusted_paths
  simp only [hpt, hslash]
  cases hrt : json_get_opt pt "runtime" with
  | none => simp [finish, join_paths, String.intercalate]
  | some project_rt =>
    cases hd : json_get_opt pt "dependencies" with
    | none =>
      simp [finish, append_libs_mapping, foldl_tpa_first]
    | some project_deps =>
      simp only [process_deps_eq dir ft _ _ (hver _ _ hrt hd), append_libs_mapping,
        ← List.foldl_append, finish, foldl_tpa_first]

theorem build_chain (depsFile : String) (deps rt tg ft libs : Json) (name : String)
    (h1 : json_get_opt deps "runtimeTarget" = some rt)
    (h2 : json_get_opt rt "name" = some (.string name))
    (h3 : json_get_opt deps "targets" = some tg)
    (h4 : json_get_opt tg name = some ft)
    (h5 : json_get_opt deps "libraries" = some libs) :
    build_tpa_list depsFile deps =
      match find_project none libs.items with
      | .error e => .error e
      | .ok none => .error .empty_optional
      | .ok (some p) => project_pass (parent_path depsFile) ft p {} ⟨"", true⟩ := by
  simp [build_tpa_list, h1, h2, h3, h4, h5, json_get_opt_string, get_string]

theorem find_some_of_mem (s : String) (c : Char) (h : c ∈ s.data) : ∃ i, find s c = some i := by
  unfold find
  have : s.data.indexOf c < s.data.length := List.indexOf_lt_length.mpr h
  exact ⟨s.data.indexOf c, if_pos this⟩

/-- The whole function on a manifest whose lookups succeed and whose scan
reaches the project entry `(s, item)`. -/
theorem build_found (depsFile : String) (deps rt tg ft libs item : Json) (name s : String)
    (pre post : List (String × Json))
    (h1 : json_get_opt deps "runtimeTarget" = some rt)
    (h2 : json_get_opt rt "name" = some (.string name))
    (h3 : json_get_opt deps "targets" = some tg)
    (h4 : json_get_opt tg name = some ft)
    (h5 : json_get_opt deps "libraries" = some libs)
    (hsplit : libs.items = pre ++ (s, item) :: post)
    (hitem : has_type item "project" = true)
    (hpre : ∀ e ∈ pre, has_type e.2 "project" = false ∧ type_readable e.2 = true) :
    build_tpa_list depsFile deps
      = project_pass (parent_path depsFile) ft (s, item) {} ⟨"", true⟩ := by
  rw [build_chain depsFile deps rt tg ft libs name h1 h2 h3 h4 h5, hsplit,
    find_project_found pre post s item hitem hpre]

theorem char_eq_of_toNat (a b : Char) (h : a.toNat = b.toNat) : a = b := by
  have ha := Char.ofNat_toNat a
  have hb := Char.ofNat_toNat b
  rw [← ha, ← hb, h]

theorem chars_lt_trans (a b c : List Char) (hab : chars_lt a b = true) (hbc : chars_lt b c = true) :
    chars_lt a c = true := by
  induction a generalizing b c with
  | nil =>
    cases b with
    | nil => simp [chars_lt] at hab
    | cons y ys =>
      cases c with
      | nil => simp [chars_lt] at hbc
      | cons z zs => simp [chars_lt]
  | cons x xs ih =>
    cases b with
    | nil => simp [chars_lt] at hab
    | cons y ys =>
      cases c with
      | nil => simp [chars_lt] at hbc
      | cons z zs =>
        simp only [chars_lt] at hab hbc ⊢
        by_cases hxy : x.toNat < y.toNat
        · by_cases hyz : y.toNat < z.toNat
          · have : x.toNat < z.toNat := by omega
            simp [this]
          · by_cases hzy : z.toNat < y.toNat
            · simp [hyz, hzy] at hbc
            · have : x.toNat < z.toNat := by omega
              simp [this]
        · by_cases hyx : y.toNat < x.toNat
          · simp [hxy, hyx] at hab
          · simp only [hxy, hyx, if_false] at hab
            by_cases hyz : y.toNat < z.toNat
            · have : x.toNat < z.toNat := by omega
              simp [this]
            · by_cases hzy : z.toNat < y.toNat
              · simp [hyz, hzy] at hbc
              · simp only [hyz, hzy, if_false] at hbc
                have h1 : ¬ x.toNat < z.toNat := by omega
                have h2 : ¬ z.toNat < x.toNat := by omega
                simp only [h1, h2, if_false]
                exact ih ys zs hab hbc

theorem chars_lt_total (a b : List Char) (hab : chars_lt a b = false) (hba : chars_lt b a = false) :
    a = b := by
  induction a generalizing b with
  | nil =>
    cases b with
    | nil => rfl
    | cons y ys => simp [chars_lt] at hab
  | cons x xs ih =>
    cases b with
    | nil => simp [chars_lt] at hba
    | cons y ys =>
      simp only [chars_lt] at hab hba
      by_cases hxy : x.toNat < y.toNat
      · simp [hxy] at hab
      · by_cases hyx : y.toNat < x.toNat
        · simp [hyx] at hba
        · simp only [hxy, hyx, if_false] at hab hba
          have hx : x = y := char_eq_of_toNat x y (by omega)
          rw [hx, ih ys hab hba]

theorem string_lt_trans (a b c : String) (hab : string_lt a b = true)
    (hbc : string_lt b c = true) : string_lt a c = true :=
  chars_lt_trans a.data b.data c.data hab hbc

theorem string_lt_total (a b : String) (hab : string_lt a b = false) (hne : a ≠ b) :
    string_lt b a = true := by
  by_contra hba
  exact hne (String.ext (chars_lt_total a.data b.data hab (by simpa using hba)))

/-- The keys of the members of an object. -/
theorem mem_keys_map_insert (k : String) (v : Json) (m : List (String × Json)) (x : String) :
    x ∈ (map_insert k v m).map Prod.fst ↔ x = k ∨ x ∈ m.map Prod.fst := by
  induction m with
  | nil => simp [map_insert]
  | cons kv rest ih =>
    obtain ⟨k1, v1⟩ := kv
    simp only [map_insert]
    split
    · simp
    · split
      · rename_i h; subst h; simp
      · simp only [List.map_cons, List.mem_cons, ih]
        tauto

theorem map_insert_sorted (k : String) (v : Json) (m : List (String × Json))
    (h : (m.map Prod.fst).Pairwise (fun a b => string_lt a b = true)) :
    ((map_insert k v m).map Prod.fst).Pairwise (fun a b => string_lt a b = true) := by
  induction m with
  | nil => simp [map_insert]
  | cons kv rest ih =>
    obtain ⟨k1, v1⟩ := kv
    simp only [List.map_cons, List.pairwise_cons] at h
    obtain ⟨hk1, hrest⟩ := h
    simp only [map_insert]
    split
    · rename_i hlt
      simp only [List.map_cons, List.pairwise_cons, List.mem_cons]
      refine ⟨?_, hk1, hrest⟩
      intro x hx
      rcases hx with hx | hx
      · rw [hx]; exact hlt
      · exact string_lt_trans k k1 x hlt (hk1 x hx)
    · split
      · rename_i heq
        subst heq
        simp only [List.map_cons, List.pairwise_cons]
        exact ⟨hk1, hrest⟩
      · rename_i hlt hne
        simp only [List.map_cons, List.pairwise_cons]
        refine ⟨?_, ih hrest⟩
        intro x hx
        rcases (mem_keys_map_insert k v rest x).mp hx with hx | hx
        · rw [hx]
          exact string_lt_total k k1 (by simpa using hlt) hne
        · exact hk1 x hx

theorem foldl_insert_sorted (members acc : List (String × Json))
    (h : (acc.map Prod.fst).Pairwise (fun a b => string_lt a b = true)) :
    ((members.foldl (fun m kv => map_insert kv.1 kv.2 m) acc).map Prod.fst).Pairwise
      (fun a b => string_lt a b = true) := by
  induction members generalizing acc with
  | nil => simpa using h
  | cons kv rest ih => exact ih _ (map_insert_sorted kv.1 kv.2 acc h)

theorem mem_keys_foldl_insert (members acc : List (String × Json)) (x : String) :
    x ∈ (members.foldl (fun m kv => map_insert kv.1 kv.2 m) acc).map Prod.fst
      ↔ x ∈ acc.map Prod.fst ∨ x ∈ members.map Prod.fst := by
  induction members generalizing acc with
  | nil => simp
  | cons kv rest ih =>
    simp only [List.foldl_cons, ih, mem_keys_map_insert, List.map_cons, List.mem_cons]
    tauto

theorem parse_object_sorted (members : List (String × Json)) :
    (((parse_object members).items).map Prod.fst).Pairwise (fun a b => string_lt a b = true) := by
  simpa [parse_object, Json.items] using foldl_insert_sorted members [] (by simp)

theorem mem_keys_parse_object (members : List (String × Json)) (x : String) :
    x ∈ ((parse_object members).items).map Prod.fst ↔ x ∈ members.map Prod.fst := by
  have h := mem_keys_foldl_insert members [] x
  simpa [parse_object, Json.items] using h

theorem build_no_runtimeTarget (depsFile : String) (deps : Json)
    (h1 : json_get_opt deps "runtimeTarget" = none) :
    build_tpa_list depsFile deps = .ok ⟨"", "", ""⟩ := by
  simp [build_tpa_list, h1, finish]

theorem build_no_name (depsFile : String) (deps rt : Json)
    (h1 : json_get_opt deps "runtimeTarget" = some rt)
    (h2 : json_get_opt rt "name" = none) :
    build_tpa_list depsFile deps = .ok ⟨"", "", ""⟩ := by
  simp [build_tpa_list, h1, h2, json_get_opt_string, finish]

theorem build_no_targets (depsFile : String) (deps rt : Json) (name : String)
    (h1 : json_get_opt deps "runtimeTarget" = some rt)
    (h2 : json_get_opt rt "name" = some (.string name))
    (h3 : json_get_opt deps "targets" = none) :
    build_tpa_list depsFile deps = .ok ⟨"", "", ""⟩ := by
  simp [build_tpa_list, h1, h2, h3, json_get_opt_string, get_string, finish]

theorem build_no_framework_target (depsFile : String) (deps rt tg : Json) (name : String)
    (h1 : json_get_opt deps "runtimeTarget" = some rt)
    (h2 : json_get_opt rt "name" = some (.string name))
    (h3 : json_get_opt deps "targets" = some tg)
    (h4 : json_get_opt tg name = none) :
    build_tpa_list depsFile deps = .ok ⟨"", "", ""⟩ := by
  simp [build_tpa_list, h1, h2, h3, h4, json_get_opt_string, get_string, finish]

theorem build_no_libraries (depsFile : String) (deps rt tg ft : Json) (name : String)
    (h1 : json_get_opt deps "runtimeTarget" = some rt)
    (h2 : json_get_opt rt "name" = some (.string name))
    (h3 : json_get_opt deps "targets" = some tg)
    (h4 : json_get_opt tg name = some ft)
    (h5 : json_get_opt deps "libraries" = none) :
    build_tpa_list depsFile deps = .ok ⟨"", "", ""⟩ := by
  simp [build_tpa_list, h1, h2, h3, h4, h5, json_get_opt_string, get_string, finish]

theorem string_of_is_string (v : Json) (h : is_string v = true) : ∃ s, v = .string s := by
  cases v <;> simp_all [is_string]

theorem mem_of_lookup (k : String) (v : Json) (l : List (String × Json))
    (h : l.lookup k = some v) : (k, v) ∈ l := by
  induction l with
  | nil => simp at h
  | cons kv rest ih =>
    obtain ⟨k1, v1⟩ := kv
    by_cases hk : k = k1
    · subst hk
      simp [List.lookup] at h
      simp [h]
    · have : (k == k1) = false := by simpa using hk
      simp only [List.lookup, this] at h
      exact List.mem_cons_of_mem _ (ih h)

theorem mem_items_of_get (j v : Json) (k : String) (h : json_get_opt j k = some v) :
    (k, v) ∈ j.items := by
  cases j with
  | object members => exact mem_of_lookup k v members h
  | null => simp [json_get_opt] at h
  | boolean b => simp [json_get_opt] at h
  | number n => simp [json_get_opt] at h
  | string s => simp [json_get_opt] at h
  | array a => simp [json_get_opt] at h

theorem find_project_total (items : List (String × Json))
    (hread : ∀ e ∈ items, type_readable e.2 = true)
    (hproj : ∃ e ∈ items, has_type e.2 "project" = true) :
    ∃ p, find_project none items = .ok (some p) := by
  induction items with
  | nil => simp at hproj
  | cons kv rest ih =>
    obtain ⟨k, item⟩ := kv
    by_cases hk : has_type item "project" = true
    · exact ⟨(k, item), find_project_found [] rest k item hk (by simp)⟩
    · have hk2 : has_type item "project" = false := by simpa using hk
      have hrk : type_readable item = true := hread (k, item) (by simp)
      have hskip := find_project_skip [(k, item)] rest (by
        intro e he
        simp only [List.mem_singleton] at he
        subst he
        exact ⟨hk2, hrk⟩)
      simp only [List.singleton_append] at hskip
      rw [hskip]
      apply ih (fun e he => hread e (by simp [he]))
      obtain ⟨e, he, hp⟩ := hproj
      simp only [List.mem_cons] at he
      rcases he with he | he
      · subst he; simp [hp] at hk
      · exact ⟨e, he, hp⟩

theorem project_pass_total (dir : String) (ft : Json) (p : String × Json)
    (hver : ∀ pt, json_get_opt ft p.1 = some pt → ∀ d, json_get_opt pt "dependencies" = some d →
      ∀ x ∈ d.items, is_string x.2 = true) :
    ∃ c, project_pass dir ft p {} ⟨"", true⟩ = .ok c := by
  cases hpt : json_get_opt ft p.1 with
  | none => exact ⟨_, project_pass_absent dir ft p hpt⟩
  | some pt =>
    cases hfind : find p.1 '/' with
    | none => exact ⟨⟨p.1, "", ""⟩, by simp [project_pass, hpt, hfind, finish]⟩
    | some slash =>
      exact ⟨_, project_pass_ok dir ft pt p slash hpt hfind (fun _ d _ hd => hver pt hpt d hd)⟩

theorem is_absolute_iff (p : String) : is_absolute p = true ↔ ∃ rest, p.data = '/' :: rest := by
  unfold is_absolute
  cases h : p.data with
  | nil => simp
  | cons c rest => simp

theorem parent_path_absolute (p : String) (h : is_absolute p = true) :
    is_absolute (parent_path p) = true := by
  obtain ⟨rest, hp⟩ := (is_absolute_iff p).mp h
  unfold parent_path
  split
  · have hmem : '/' ∈ p.data.reverse := by simp [hp]
    have ht : p.data.reverse.dropWhile (fun c => c != '/') ≠ [] := by
      intro hnil
      have := List.dropWhile_eq_nil_iff.mp hnil '/' hmem
      simp at this
    have hsuf : (p.data.reverse.dropWhile (fun c => c != '/')).dropWhile (fun c => c == '/')
        <:+ p.data.reverse :=
      (List.dropWhile_suffix _).trans (List.dropWhile_suffix _)
    dsimp only
    generalize p.data.reverse.dropWhile (fun c => c != '/') = t at ht hsuf
    generalize t.dropWhile (fun c => c == '/') = u at hsuf
    cases u with
    | nil =>
      cases t with
      | nil => exact absurd rfl ht
      | cons b bs => rfl
    | cons a as =>
      obtain ⟨pre, hpre⟩ := hsuf
      have hrev : (a :: as).reverse ++ pre.reverse = '/' :: rest := by
        rw [← List.reverse_append, hpre, List.reverse_reverse, hp]
      apply (is_absolute_iff _).mpr
      cases hr : (a :: as).reverse with
      | nil => simp at hr
      | cons x xs =>
        rw [hr] at hrev
        simp only [List.cons_append, List.cons.injEq] at hrev
        exact ⟨xs, by simp [hrev.1]⟩
  · exact h

theorem path_append_absolute (dir key : String) (h : is_absolute dir = true) :
    is_absolute (path_append dir key) = true := by
  obtain ⟨rest, hd⟩ := (is_absolute_iff dir).mp h
  unfold path_append
  split
  · rename_i hc
    simp only [Bool.or_eq_true] at hc
    rcases hc with hc | hc
    · exact hc
    · simp [hd] at hc
  · split
    · exact (is_absolute_iff _).mpr ⟨rest ++ "/".data ++ key.data, by simp [hd]⟩
    · exact (is_absolute_iff _).mpr ⟨rest ++ key.data, by simp [hd]⟩

theorem append_libs_keys (dir : String) (items : List (String × Json)) (st : Tpa) :
    ∃ keys : List String, (∀ k ∈ keys, ends_with (lowercase k) ".dll" = true) ∧
      append_libs dir items st = (keys.map (path_append dir)).foldl tpa_append st := by
  refine ⟨(items.map Prod.fst).filter (fun k => ends_with (lowercase k) ".dll"), ?_, ?_⟩
  · intro k hk
    exact (List.mem_filter.mp hk).2
  · simpa [dll_paths, Json.items] using append_libs_eq dir items st

theorem sub_keys (dir : String) (target : Json) (sub : String) (st : Tpa) :
    ∃ keys : List String, (∀ k ∈ keys, ends_with (lowercase k) ".dll" = true) ∧
      (match json_get_opt target sub with
        | some m => append_libs dir m.items st
        | none => st) = (keys.map (path_append dir)).foldl tpa_append st := by
  cases json_get_opt target sub with
  | none => exact ⟨[], by simp, rfl⟩
  | some m => exact append_libs_keys dir m.items st

theorem process_deps_keys (dir : String) (ft : Json) (items : List (String × Json))
    (st st1 : Tpa) (h : process_deps dir ft items st = .ok st1) :
    ∃ keys : List String, (∀ k ∈ keys, ends_with (lowercase k) ".dll" = true) ∧
      st1 = (keys.map (path_append dir)).foldl tpa_append st := by
  induction items generalizing st with
  | nil =>
    simp only [process_deps, Except.ok.injEq] at h
    exact ⟨[], by simp, h.symm⟩
  | cons kv rest ih =>
    obtain ⟨k, v⟩ := kv
    cases v with
    | string version =>
      simp only [process_deps, get_string] at h
      cases hk : json_get_opt ft (ssprintf_key k version) with
      | none =>
        rw [hk] at h
        exact ih st h
      | some target =>
        rw [hk] at h
        simp only at h
        obtain ⟨k1, hk1, e1⟩ := sub_keys dir target "runtime" st
        rw [e1] at h
        obtain ⟨k2, hk2, e2⟩ := sub_keys dir target "native"
          ((k1.map (path_append dir)).foldl tpa_append st)
        rw [e2] at h
        obtain ⟨k3, hk3, e3⟩ := ih _ h
        refine ⟨k1 ++ k2 ++ k3, ?_, ?_⟩
        · intro x hx
          simp only [List.mem_append] at hx
          rcases hx with (hx | hx) | hx
          · exact hk1 x hx
          · exact hk2 x hx
          · exact hk3 x hx
        · simp only [List.map_append, List.foldl_append]
          exact e3
    | null => simp [process_deps, get_string] at h
    | boolean b => simp [process_deps, get_string] at h
    | number n => simp [process_deps, get_string] at h
    | array a => simp [process_deps, get_string] at h
    | object o => simp [process_deps, get_string] at h

theorem project_pass_keys (dir : String) (ft : Json) (p : String × Json) (c : ctx)
    (h : project_pass dir ft p {} ⟨"", true⟩ = .ok c) :
    ∃ keys : List String, (∀ k ∈ keys, ends_with (lowercase k) ".dll" = true) ∧
      c.tpa_list = join_paths (keys.map (path_append dir)) := by
  unfold project_pass at h
  cases hpt : json_get_opt ft p.1 with
  | none =>
    simp only [hpt, finish, Except.ok.injEq] at h
    exact ⟨[], by simp, by rw [← h]; rfl⟩
  | some pt =>
    cases hfind : find p.1 '/' with
    | none =>
      simp only [hpt, hfind, finish, Except.ok.injEq] at h
      exact ⟨[], by simp, by rw [← h]; rfl⟩
    | some slash =>
      cases hrt : json_get_opt pt "runtime" with
      | none =>
        simp only [hpt, hfind, hrt, finish, Except.ok.injEq] at h
        exact ⟨[], by simp, by rw [← h]; rfl⟩
      | some project_rt =>
        obtain ⟨k1, hk1, e1⟩ := append_libs_keys dir project_rt.items ⟨"", true⟩
        cases hd : json_get_opt pt "dependencies" with
        | none =>
          simp only [hpt, hfind, hrt, hd, finish, Except.ok.injEq, e1] at h
          exact ⟨k1, hk1, by rw [← h]; exact foldl_tpa_first _⟩
        | some project_deps =>
          simp only [hpt, hfind, hrt, hd, e1] at h
          cases hproc : process_deps dir ft project_deps.items
              ((k1.map (path_append dir)).foldl tpa_append ⟨"", true⟩) with
          | error e => simp [hproc] at h
          | ok st2 =>
            simp only [hproc, finish, Except.ok.injEq] at h
            obtain ⟨k2, hk2, e2⟩ := process_deps_keys dir ft _ _ _ hproc
            refine ⟨k1 ++ k2, ?_, ?_⟩
            · intro x hx
              rcases List.mem_append.mp hx with hx | hx
              · exact hk1 x hx
              · exact hk2 x hx
            · rw [← h]
              simp only [e2, List.map_append, ← List.foldl_append]
              exact foldl_tpa_first _

theorem build_keys (depsFile : String) (deps : Json) (c : ctx)
    (h : build_tpa_list depsFile deps = .ok c) :
    ∃ keys : List String, (∀ k ∈ keys, ends_with (lowercase k) ".dll" = true) ∧
      c.tpa_list = join_paths (keys.map (path_append (parent_path depsFile))) := by
  have hempty : ∀ c1 : ctx, (Except.ok ⟨"", "", ""⟩ : Except Fault ctx) = .ok c1 →
      ∃ keys : List String, (∀ k ∈ keys, ends_with (lowercase k) ".dll" = true) ∧
        c1.tpa_list = join_paths (keys.map (path_append (parent_path depsFile))) := by
    intro c1 h1
    simp only [Except.ok.injEq] at h1
    exact ⟨[], by simp, by rw [← h1]; rfl⟩
  cases h1 : json_get_opt deps "runtimeTarget" with
  | none => exact hempty c (by rw [← build_no_runtimeTarget depsFile deps h1]; exact h)
  | some rt =>
    cases h2 : json_get_opt rt "name" with
    | none => exact hempty c (by rw [← build_no_name depsFile deps rt h1 h2]; exact h)
    | some v =>
      cases v with
      | string name =>
        cases h3 : json_get_opt deps "targets" with
        | none => exact hempty c (by rw [← build_no_targets depsFile deps rt name h1 h2 h3]; exact h)
        | some tg =>
          cases h4 : json_get_opt tg name with
          | none =>
            exact hempty c (by
              rw [← build_no_framework_target depsFile deps rt tg name h1 h2 h3 h4]; exact h)
          | some ft =>
            cases h5 : json_get_opt deps "libraries" with
            | none =>
              exact hempty c (by
                rw [← build_no_libraries depsFile deps rt tg ft name h1 h2 h3 h4 h5]; exact h)
            | some libs =>
              rw [build_chain depsFile deps rt tg ft libs name h1 h2 h3 h4 h5] at h
              cases hp : find_project none libs.items with
              | error e => simp [hp] at h
              | ok o =>
                cases o with
                | none => simp [hp] at h
                | some p =>
                  simp only [hp] at h
                  exact project_pass_keys _ ft p c h
      | null => simp [build_tpa_list, h1, h2, json_get_opt_string, get_string] at h
      | boolean b => simp [build_tpa_list, h1, h2, json_get_opt_string, get_string] at h
      | number n => simp [build_tpa_list, h1, h2, json_get_opt_string, get_string] at h
      | array a => simp [build_tpa_list, h1, h2, json_get_opt_string, get_string] at h
      | object o => simp [build_tpa_list, h1, h2, json_get_opt_string, get_string] at h


/-! ## The claims -/

/-- Claim C1, as amended.  When `runtimeTarget.name`, `targets[name]` and
`libraries` are present, the first library entry of type `project` is
`(s, item)` with every entry walked before it having no `type` or a string one,
`s` contains `/` and is a key of the framework target, and every dependency
version is a string, `build_tpa_list` returns, and its `tpa_list` is the join
with `:` (nothing before the first entry or after the last) of: nothing when the
project target has no `runtime`; otherwise the joined project `runtime` keys
whose lowercase form ends in `.dll`, then for each dependency in iteration order
the `runtime` and then the `native` keys ending in `.dll` of the framework
target's entry under the key made of name and version, each cut at its
first NUL, with `/` between; a dependency without such an entry adds nothing. -/
theorem tpa_list_is_joined_sequence (depsFile : String) (deps rt tg ft libs item pt : Json)
    (name s : String) (pre post : List (String × Json))
    (h1 : json_get_opt deps "runtimeTarget" = some rt)
    (h2 : json_get_opt rt "name" = some (.string name))
    (h3 : json_get_opt deps "targets" = some tg)
    (h4 : json_get_opt tg name = some ft)
    (h5 : json_get_opt deps "libraries" = some libs)
    (hsplit : libs.items = pre ++ (s, item) :: post)
    (hitem : has_type item "project" = true)
    (hpre : ∀ e ∈ pre, has_type e.2 "project" = false ∧ type_readable e.2 = true)
    (hslash : '/' ∈ s.data)
    (hpt : json_get_opt ft s = some pt)
    (hver : ∀ project_deps, json_get_opt pt "dependencies" = some project_deps →
      ∀ e ∈ project_deps.items, is_string e.2 = true) :
    ∃ c, build_tpa_list depsFile deps = .ok c ∧
      c.tpa_list = join_paths (trusted_paths ssprintf_key (parent_path depsFile) ft pt) := by
  obtain ⟨slash, hfind⟩ := find_some_of_mem s '/' hslash
  rw [build_found depsFile deps rt tg ft libs item name s pre post h1 h2 h3 h4 h5 hsplit hitem hpre,
    project_pass_ok (parent_path depsFile) ft pt (s, item) slash hpt hfind
      (fun _ d _ hd => hver d hd)]
  exact ⟨_, rfl, rfl⟩

/-- Claim C1, amended, at a manifest with two dependencies: `Absent/1.0.0` is
not in the framework target and adds nothing, `Foo.DLL` is listed and
`Foo.json` is not. -/
theorem tpa_list_is_joined_sequence_witness :
    ∃ c, build_tpa_list "/app/MyApp.deps.json" two_dependencies_manifest = .ok c ∧
      c.tpa_list = "/app/MyApp.dll:/app/Foo.DLL" :=
  tpa_list_is_joined_sequence "/app/MyApp.deps.json" two_dependencies_manifest
    (parse_object [("name", .string "net1.0")])
    (parse_object [("net1.0", parse_object
      [("MyApp/1.0.0", parse_object [("runtime", files ["MyApp.dll"]),
          ("dependencies", parse_object [("Absent", .string "1.0.0"), ("Foo", .string "2.0.0")])]),
        ("Foo/2.0.0", parse_object [("runtime", files ["Foo.DLL", "Foo.json"])])])])
    (parse_object
      [("MyApp/1.0.0", parse_object [("runtime", files ["MyApp.dll"]),
          ("dependencies", parse_object [("Absent", .string "1.0.0"), ("Foo", .string "2.0.0")])]),
        ("Foo/2.0.0", parse_object [("runtime", files ["Foo.DLL", "Foo.json"])])])
    (parse_object [("MyApp/1.0.0", library (.string "project")),
      ("Absent/1.0.0", library (.string "package")), ("Foo/2.0.0", library (.string "package"))])
    (library (.string "project"))
    (parse_object [("runtime", files ["MyApp.dll"]),
      ("dependencies", parse_object [("Absent", .string "1.0.0"), ("Foo", .string "2.0.0")])])
    "net1.0" "MyApp/1.0.0"
    [("Absent/1.0.0", library (.string "package")), ("Foo/2.0.0", library (.string "package"))] []
    rfl rfl rfl rfl rfl rfl rfl (by decide) (by decide) rfl (by decide)

/-- Claim C1 fails as stated, at two manifests in `/app`.  In the first the
library `A/1.0.0`, walked before the project entry `MyApp/1.0.0`, has the
number 5 as `type`: everything the claim asks for is present, and the function
throws instead of returning a list.  In the second the dependency is named
`Dep`, NUL, `x` with version `1.0.0`: that identity is absent from the framework
target, so the claimed sequence is `/app/MyApp.dll` alone, and the function
looks up `Dep/1.0.0` and lists `/app/Dep.dll` too. -/
theorem tpa_list_is_joined_sequence_counterexample :
    build_tpa_list "/app/MyApp.deps.json" numeric_type_manifest = .error .type_error ∧
    build_tpa_list "/app/MyApp.deps.json" nul_dependency_manifest
      = .ok ⟨"MyApp/1.0.0", "MyApp, Version=1.0.0", "/app/MyApp.dll:/app/Dep.dll"⟩ ∧
    join_paths (trusted_paths identity_key (parent_path "/app/MyApp.deps.json")
      (parse_object
        [("MyApp/1.0.0", parse_object [("runtime", files ["MyApp.dll"]),
            ("dependencies", parse_object [("Dep\x00x", .string "1.0.0")])]),
          ("Dep/1.0.0", parse_object [("runtime", files ["Dep.dll"])])])
      (parse_object [("runtime", files ["MyApp.dll"]),
        ("dependencies", parse_object [("Dep\x00x", .string "1.0.0")])]))
      = "/app/MyApp.dll" :=
  ⟨rfl, rfl, rfl⟩

/-- Claim C2, as amended.  When resolution finds the project entry
(`runtimeTarget.name`, `targets[name]` and `libraries` are present, the first
library entry of type `project` has the identity `name/version` with no `/` in
`name`, the entries walked before it have no `type` or a string one, and the
identity is a key of the framework target), and
every dependency version is a string, `build_tpa_list` returns with
`main_asm_name` the identity and `main_asm_fqdn` made of `name`, the text
`, Version=` and `version`, where `name` and `version` are each cut at their
first NUL. -/
theorem entry_identity_is_name_version (depsFile : String) (deps rt tg ft libs item pt : Json)
    (target name version : String) (pre post : List (String × Json))
    (h1 : json_get_opt deps "runtimeTarget" = some rt)
    (h2 : json_get_opt rt "name" = some (.string target))
    (h3 : json_get_opt deps "targets" = some tg)
    (h4 : json_get_opt tg target = some ft)
    (h5 : json_get_opt deps "libraries" = some libs)
    (hsplit : libs.items = pre ++ (name ++ "/" ++ version, item) :: post)
    (hitem : has_type item "project" = true)
    (hpre : ∀ e ∈ pre, has_type e.2 "project" = false ∧ type_readable e.2 = true)
    (hname : '/' ∉ name.data)
    (hpt : json_get_opt ft (name ++ "/" ++ version) = some pt)
    (hver : ∀ project_deps, json_get_opt pt "dependencies" = some project_deps →
      ∀ e ∈ project_deps.items, is_string e.2 = true) :
    ∃ c, build_tpa_list depsFile deps = .ok c ∧
      c.main_asm_name = name ++ "/" ++ version ∧
      c.main_asm_fqdn = c_str name ++ ", Version=" ++ c_str version := by
  have hfind : find (name ++ "/" ++ version) '/' = some name.data.length :=
    find_split name version '/' hname
  rw [build_found depsFile deps rt tg ft libs item target _ pre post h1 h2 h3 h4 h5 hsplit hitem
      hpre,
    project_pass_ok (parent_path depsFile) ft pt (name ++ "/" ++ version, item) _ hpt hfind
      (fun _ d _ hd => hver d hd)]
  refine ⟨_, rfl, rfl, ?_⟩
  show ssprintf_fqdn (substr (name ++ String.singleton '/' ++ version) 0 name.data.length)
    (substr_from (name ++ String.singleton '/' ++ version) (name.data.length + 1)) = _
  rw [substr_split, substr_from_split]
  rfl

/-- Claim C2, amended, at the identity `MyApp/1.2.3`, which gives
`MyApp, Version=1.2.3`; and the Scenario manifest in `/app` gives
`MyApp, Version=1.0.0` with the trusted list `/app/MyApp.dll`. -/
theorem entry_identity_is_name_version_witness :
    (∃ c, build_tpa_list "/app/MyApp.deps.json" version_manifest = .ok c ∧
      c.main_asm_name = "MyApp/1.2.3" ∧ c.main_asm_fqdn = "MyApp, Version=1.2.3") ∧
    build_tpa_list "/app/MyApp.deps.json" scenario_manifest
      = .ok ⟨"MyApp/1.0.0", "MyApp, Version=1.0.0", "/app/MyApp.dll"⟩ :=
  ⟨entry_identity_is_name_version "/app/MyApp.deps.json" version_manifest
    (parse_object [("name", .string "net1.0")])
    (parse_object [("net1.0", parse_object
      [("MyApp/1.2.3", parse_object [("runtime", files ["MyApp.dll"]),
        ("dependencies", parse_object [("Lib", .string "1.0.0")])])])])
    (parse_object [("MyApp/1.2.3", parse_object [("runtime", files ["MyApp.dll"]),
      ("dependencies", parse_object [("Lib", .string "1.0.0")])])])
    (parse_object [("MyApp/1.2.3", library (.string "project")),
      ("Lib/1.0.0", library (.string "package"))])
    (library (.string "project"))
    (parse_object [("runtime", files ["MyApp.dll"]),
      ("dependencies", parse_object [("Lib", .string "1.0.0")])])
    "net1.0" "MyApp" "1.2.3" [("Lib/1.0.0", library (.string "package"))] []
    rfl rfl rfl rfl rfl rfl rfl (by decide) (by decide) rfl (by decide), rfl⟩

/-- Claim C2 fails as stated, at two manifests in `/app` on which the project
entry is found and is a key of the framework target.  With the identity `My`,
NUL, `App/1.0.0` the qualified name is `My, Version=1.0.0`, not the part before
the `/` followed by the version.  With a dependency whose version is the number
7 the function throws after the name is made, and returns no context. -/
theorem entry_identity_is_name_version_counterexample :
    build_tpa_list "/app/MyApp.deps.json" nul_identity_manifest
      = .ok ⟨"My\x00App/1.0.0", "My, Version=1.0.0", "/app/MyApp.dll"⟩ ∧
    "My, Version=1.0.0" ≠ "My\x00App" ++ ", Version=" ++ "1.0.0" ∧
    build_tpa_list "/app/MyApp.deps.json" numeric_version_manifest = .error .type_error :=
  ⟨rfl, by decide, rfl⟩

/-- Claim C3, as amended.  On a manifest that resolves as in C1 and whose
project `runtime` mapping is the object parsed from `members`, listed in the
order of the manifest text, `build_tpa_list` returns a trusted list that starts
with the joined paths of the `.dll` keys in strictly ascending key order, the
order in which an object is walked, whatever the order of the text; the
dependencies' entries follow. -/
theorem runtime_paths_in_key_order (depsFile : String) (deps rt tg ft libs item pt : Json)
    (name s : String) (pre post members : List (String × Json))
    (h1 : json_get_opt deps "runtimeTarget" = some rt)
    (h2 : json_get_opt rt "name" = some (.string name))
    (h3 : json_get_opt deps "targets" = some tg)
    (h4 : json_get_opt tg name = some ft)
    (h5 : json_get_opt deps "libraries" = some libs)
    (hsplit : libs.items = pre ++ (s, item) :: post)
    (hitem : has_type item "project" = true)
    (hpre : ∀ e ∈ pre, has_type e.2 "project" = false ∧ type_readable e.2 = true)
    (hslash : '/' ∈ s.data)
    (hpt : json_get_opt ft s = some pt)
    (hrt : json_get_opt pt "runtime" = some (parse_object members))
    (hver : ∀ project_deps, json_get_opt pt "dependencies" = some project_deps →
      ∀ e ∈ project_deps.items, is_string e.2 = true) :
    ∃ (c : ctx) (keys rest : List String), build_tpa_list depsFile deps = .ok c ∧
      keys.Pairwise (fun a b => string_lt a b = true) ∧
      (∀ k, k ∈ keys ↔ k ∈ members.map Prod.fst) ∧
      c.tpa_list = join_paths
        ((keys.filter (fun k => ends_with (lowercase k) ".dll")).map
          (path_append (parent_path depsFile)) ++ rest) := by
  obtain ⟨slash, hfind⟩ := find_some_of_mem s '/' hslash
  rw [build_found depsFile deps rt tg ft libs item name s pre post h1 h2 h3 h4 h5 hsplit hitem hpre,
    project_pass_ok (parent_path depsFile) ft pt (s, item) slash hpt hfind
      (fun _ d _ hd => hver d hd)]
  refine ⟨_, ((parse_object members).items).map Prod.fst,
    (match json_get_opt pt "dependencies" with
      | none => []
      | some project_deps =>
        (project_deps.items.map
          (dep_paths ssprintf_key (parent_path depsFile) ft)).flatten), rfl,
    parse_object_sorted members, mem_keys_parse_object members, ?_⟩
  simp only [trusted_paths, hrt, dll_paths]

/-- Claim C3, amended, at the manifest whose project `runtime` lists `B.dll`
and then `A.dll`. -/
theorem runtime_paths_in_key_order_witness :
    ∃ (c : ctx) (keys rest : List String), build_tpa_list "/app/MyApp.deps.json" text_order_manifest = .ok c ∧
      keys.Pairwise (fun a b => string_lt a b = true) ∧
      (∀ k, k ∈ keys ↔ k ∈ ["B.dll", "A.dll"]) ∧
      c.tpa_list = join_paths
        ((keys.filter (fun k => ends_with (lowercase k) ".dll")).map
          (path_append (parent_path "/app/MyApp.deps.json")) ++ rest) :=
  runtime_paths_in_key_order "/app/MyApp.deps.json" text_order_manifest
    (parse_object [("name", .string "net1.0")])
    (parse_object [("net1.0", parse_object
      [("MyApp/1.0.0", parse_object [("runtime", files ["B.dll", "A.dll"])])])])
    (parse_object [("MyApp/1.0.0", parse_object [("runtime", files ["B.dll", "A.dll"])])])
    (parse_object [("MyApp/1.0.0", library (.string "project"))])
    (library (.string "project"))
    (parse_object [("runtime", files ["B.dll", "A.dll"])])
    "net1.0" "MyApp/1.0.0" [] [] [("B.dll", parse_object []), ("A.dll", parse_object [])]
    rfl rfl rfl rfl rfl rfl rfl (by decide) (by decide) rfl rfl (by decide)

/-- Claim C3 fails as stated: the manifest in `/app` whose project `runtime`
lists `B.dll` and then `A.dll` gives the trusted list `/app/A.dll:/app/B.dll`,
with `A.dll` first, and not `/app/B.dll:/app/A.dll`. -/
theorem runtime_paths_in_key_order_counterexample :
    build_tpa_list "/app/MyApp.deps.json" text_order_manifest
      = .ok ⟨"MyApp/1.0.0", "MyApp, Version=1.0.0", "/app/A.dll:/app/B.dll"⟩ ∧
    "/app/A.dll:/app/B.dll" ≠ "/app/B.dll:/app/A.dll" :=
  ⟨rfl, by decide⟩

/-- Claim C4, as amended.  For every manifest path and every JSON document in
which `runtimeTarget.name`, where present, is a string, every library entry has
no `type` or a string one, `libraries`, where present, holds an entry of type
`project`, and every dependency version under `targets` is a string,
`build_tpa_list` returns a `ctx` and raises nothing.  (A value that is not a
string in one of those places is not skipped: the conversion throws.) -/
theorem build_returns_on_typed_manifest (depsFile : String) (deps : Json)
    (hname : ∀ rt, json_get_opt deps "runtimeTarget" = some rt →
      ∀ v, json_get_opt rt "name" = some v → is_string v = true)
    (hlibs : ∀ libs, json_get_opt deps "libraries" = some libs →
      (∀ e ∈ libs.items, type_readable e.2 = true) ∧
        ∃ e ∈ libs.items, has_type e.2 "project" = true)
    (hver : ∀ tg, json_get_opt deps "targets" = some tg → ∀ t ∈ tg.items, ∀ e ∈ t.2.items,
      ∀ d, json_get_opt e.2 "dependencies" = some d → ∀ x ∈ d.items, is_string x.2 = true) :
    ∃ c, build_tpa_list depsFile deps = .ok c := by
  cases h1 : json_get_opt deps "runtimeTarget" with
  | none => exact ⟨_, build_no_runtimeTarget depsFile deps h1⟩
  | some rt =>
    cases h2 : json_get_opt rt "name" with
    | none => exact ⟨_, build_no_name depsFile deps rt h1 h2⟩
    | some v =>
      obtain ⟨name, hv⟩ := string_of_is_string v (hname rt h1 v h2)
      subst hv
      cases h3 : json_get_opt deps "targets" with
      | none => exact ⟨_, build_no_targets depsFile deps rt name h1 h2 h3⟩
      | some tg =>
        cases h4 : json_get_opt tg name with
        | none => exact ⟨_, build_no_framework_target depsFile deps rt tg name h1 h2 h3 h4⟩
        | some ft =>
          cases h5 : json_get_opt deps "libraries" with
          | none => exact ⟨_, build_no_libraries depsFile deps rt tg ft name h1 h2 h3 h4 h5⟩
          | some libs =>
            obtain ⟨hread, hproj⟩ := hlibs libs h5
            obtain ⟨p, hp⟩ := find_project_total libs.items hread hproj
            rw [build_chain depsFile deps rt tg ft libs name h1 h2 h3 h4 h5, hp]
            exact project_pass_total _ ft p (fun pt hpt d hd =>
              hver tg h3 (name, ft) (mem_items_of_get tg ft name h4) (p.1, pt)
                (mem_items_of_get ft pt p.1 hpt) d hd)

/-- Claim C4, amended, at the manifest with two dependencies. -/
theorem build_returns_on_typed_manifest_witness :
    ∃ c, build_tpa_list "/app/MyApp.deps.json" two_dependencies_manifest = .ok c :=
  build_returns_on_typed_manifest "/app/MyApp.deps.json" two_dependencies_manifest
    (by decide) (by decide) (by decide)

/-- Claim C4 fails as stated: on the manifest whose `runtimeTarget.name` is the
number 7, on the one with the number 5 as a library's `type`, and on the one
with the number 7 as a dependency's version, `build_tpa_list` throws a type
error and returns no context. -/
theorem build_returns_on_typed_manifest_counterexample :
    build_tpa_list "/app/MyApp.deps.json" numeric_name_manifest = .error .type_error ∧
    build_tpa_list "/app/MyApp.deps.json" numeric_type_manifest = .error .type_error ∧
    build_tpa_list "/app/MyApp.deps.json" numeric_version_manifest = .error .type_error :=
  ⟨rfl, rfl, rfl⟩

/-- Claim C5, as amended.  When `runtimeTarget.name`, `targets[name]` and
`libraries` are present, the first library entry of type `project` is
`(s, item)`, every entry walked before it has no `type` or a string one, and
`s` contains no `/`, then, whether or not `s` is a key of the framework target
and whatever `runtime` and `dependencies` hold, `build_tpa_list` returns with
`main_asm_name` equal to `s`, `main_asm_fqdn` empty and `tpa_list` empty. -/
theorem no_version_terminates_early (depsFile : String) (deps rt tg ft libs item : Json)
    (name s : String) (pre post : List (String × Json))
    (h1 : json_get_opt deps "runtimeTarget" = some rt)
    (h2 : json_get_opt rt "name" = some (.string name))
    (h3 : json_get_opt deps "targets" = some tg)
    (h4 : json_get_opt tg name = some ft)
    (h5 : json_get_opt deps "libraries" = some libs)
    (hsplit : libs.items = pre ++ (s, item) :: post)
    (hitem : has_type item "project" = true)
    (hpre : ∀ e ∈ pre, has_type e.2 "project" = false ∧ type_readable e.2 = true)
    (hslash : '/' ∉ s.data) :
    build_tpa_list depsFile deps = .ok ⟨s, "", ""⟩ := by
  rw [build_found depsFile deps rt tg ft libs item name s pre post h1 h2 h3 h4 h5 hsplit hitem hpre]
  exact project_pass_no_slash (parent_path depsFile) ft (s, item) hslash

/-- Claim C5, amended, at the manifest whose project entry is `MyApp`: the
package `Lib/1.0.0` is walked before it, and the framework target holds `MyApp`
with a runtime library, which is not listed. -/
theorem no_version_terminates_early_witness :
    build_tpa_list "/app/MyApp.deps.json" no_version_manifest = .ok ⟨"MyApp", "", ""⟩ :=
  no_version_terminates_early "/app/MyApp.deps.json" no_version_manifest
    (parse_object [("name", .string "net1.0")])
    (parse_object [("net1.0", parse_object
      [("MyApp", parse_object [("runtime", files ["MyApp.dll"])])])])
    (parse_object [("MyApp", parse_object [("runtime", files ["MyApp.dll"])])])
    (parse_object [("MyApp", library (.string "project")),
      ("Lib/1.0.0", library (.string "package"))])
    (library (.string "project"))
    "net1.0" "MyApp" [("Lib/1.0.0", library (.string "package"))] []
    rfl rfl rfl rfl rfl rfl rfl (by decide) (by decide)

/-- Claim C5 fails as stated, at two manifests whose first `project` entry is
`MyApp`, without `/`.  The one that holds `libraries` alone gives an empty
`main_asm_name`, not the identity.  On the one where the library `A`, walked
before `MyApp`, has the number 5 as `type`, the function throws. -/
theorem no_version_terminates_early_counterexample :
    build_tpa_list "/app/MyApp.deps.json" libraries_only_manifest = .ok ⟨"", "", ""⟩ ∧
    build_tpa_list "/app/MyApp.deps.json" no_version_numeric_type_manifest
      = .error .type_error :=
  ⟨rfl, rfl⟩

/-- Claim C6, as amended.  For the empty document, and for every document whose
`runtimeTarget.name` is absent or a string and that lacks `runtimeTarget`,
`runtimeTarget.name`, `targets`, `targets[runtimeTarget.name]` or `libraries`,
`build_tpa_list` raises nothing and returns a context whose three fields are
empty. -/
theorem lacking_section_gives_empty (depsFile : String) (deps : Json)
    (hname : ∀ rt, json_get_opt deps "runtimeTarget" = some rt →
      ∀ v, json_get_opt rt "name" = some v → is_string v = true)
    (hlack : json_get_opt deps "runtimeTarget" = none ∨
      (∃ rt, json_get_opt deps "runtimeTarget" = some rt ∧ json_get_opt rt "name" = none) ∨
      json_get_opt deps "targets" = none ∨
      (∃ rt name tg, json_get_opt deps "runtimeTarget" = some rt ∧
        json_get_opt rt "name" = some (.string name) ∧
        json_get_opt deps "targets" = some tg ∧ json_get_opt tg name = none) ∨
      json_get_opt deps "libraries" = none) :
    build_tpa_list depsFile deps = .ok ⟨"", "", ""⟩ := by
  cases h1 : json_get_opt deps "runtimeTarget" with
  | none => exact build_no_runtimeTarget depsFile deps h1
  | some rt =>
    cases h2 : json_get_opt rt "name" with
    | none => exact build_no_name depsFile deps rt h1 h2
    | some v =>
      obtain ⟨name, hv⟩ := string_of_is_string v (hname rt h1 v h2)
      subst hv
      cases h3 : json_get_opt deps "targets" with
      | none => exact build_no_targets depsFile deps rt name h1 h2 h3
      | some tg =>
        cases h4 : json_get_opt tg name with
        | none => exact build_no_framework_target depsFile deps rt tg name h1 h2 h3 h4
        | some ft =>
          cases h5 : json_get_opt deps "libraries" with
          | none => exact build_no_libraries depsFile deps rt tg ft name h1 h2 h3 h4 h5
          | some libs =>
            rcases hlack with h | ⟨rt1, hr, hn⟩ | h | ⟨rt1, name1, tg1, hr, hn, ht, hf⟩ | h
            · rw [h1] at h; cases h
            · rw [h1] at hr; cases hr; rw [h2] at hn; cases hn
            · rw [h3] at h; cases h
            · rw [h1] at hr; cases hr
              rw [h2] at hn; cases hn
              rw [h3] at ht; cases ht
              rw [h4] at hf; cases hf
            · rw [h5] at h; cases h

/-- Claim C6, amended, at the empty document, the value `deps{}` that is left
when the text is not JSON. -/
theorem lacking_section_gives_empty_witness :
    build_tpa_list "/app/MyApp.deps.json" .null = .ok ⟨"", "", ""⟩ :=
  lacking_section_gives_empty "/app/MyApp.deps.json" .null (by decide) (Or.inl rfl)

/-- Claim C6 fails as stated: the document that holds `runtimeTarget` alone,
with the number 7 as `name`, lacks `targets` and `libraries`, and
`build_tpa_list` throws on it. -/
theorem lacking_section_gives_empty_counterexample :
    json_get_opt numeric_name_manifest "targets" = none ∧
    json_get_opt numeric_name_manifest "libraries" = none ∧
    build_tpa_list "/app/MyApp.deps.json" numeric_name_manifest = .error .type_error :=
  ⟨rfl, rfl, rfl⟩

/-- Claim C8, as amended.  When `runtimeTarget.name`, `targets[name]` and
`libraries` are present, the first library entry of type `project` is
`(s, item)`, every entry walked before it has no `type` or a string one, and
`s` is absent from the framework target, `build_tpa_list` leaves the pass at the
project target lookup, which comes before the split at `/`: it returns with
`main_asm_name` equal to `s`, an empty trusted list, and `main_asm_fqdn` still
empty. -/
theorem missing_project_target_aborts (depsFile : String) (deps rt tg ft libs item : Json)
    (name s : String) (pre post : List (String × Json))
    (h1 : json_get_opt deps "runtimeTarget" = some rt)
    (h2 : json_get_opt rt "name" = some (.string name))
    (h3 : json_get_opt deps "targets" = some tg)
    (h4 : json_get_opt tg name = some ft)
    (h5 : json_get_opt deps "libraries" = some libs)
    (hsplit : libs.items = pre ++ (s, item) :: post)
    (hitem : has_type item "project" = true)
    (hpre : ∀ e ∈ pre, has_type e.2 "project" = false ∧ type_readable e.2 = true)
    (hpt : json_get_opt ft s = none) :
    build_tpa_list depsFile deps = .ok ⟨s, "", ""⟩ := by
  rw [build_found depsFile deps rt tg ft libs item name s pre post h1 h2 h3 h4 h5 hsplit hitem hpre]
  exact project_pass_absent (parent_path depsFile) ft (s, item) hpt

/-- Claim C8, amended, at the manifest whose project entry `MyApp/1.0.0` is not
in the framework target. -/
theorem missing_project_target_aborts_witness :
    build_tpa_list "/app/MyApp.deps.json" project_missing_manifest
      = .ok ⟨"MyApp/1.0.0", "", ""⟩ :=
  missing_project_target_aborts "/app/MyApp.deps.json" project_missing_manifest
    (parse_object [("name", .string "net1.0")])
    (parse_object [("net1.0", parse_object
      [("Lib/1.0.0", parse_object [("runtime", files ["Lib.dll"])])])])
    (parse_object [("Lib/1.0.0", parse_object [("runtime", files ["Lib.dll"])])])
    (parse_object [("MyApp/1.0.0", library (.string "project"))])
    (library (.string "project"))
    "net1.0" "MyApp/1.0.0" [] []
    rfl rfl rfl rfl rfl rfl rfl (by decide) rfl

/-- Claim C8 fails as stated, at two manifests whose project entry
`MyApp/1.0.0` is absent from the framework target.  On the first the function
returns with `main_asm_fqdn` empty, not `MyApp, Version=1.0.0`.  On the second,
where the library `A/1.0.0`, walked before the project entry, has the number 5
as `type`, it throws. -/
theorem missing_project_target_aborts_counterexample :
    build_tpa_list "/app/MyApp.deps.json" project_missing_manifest
      = .ok ⟨"MyApp/1.0.0", "", ""⟩ ∧
    "" ≠ "MyApp, Version=1.0.0" ∧
    build_tpa_list "/app/MyApp.deps.json" project_missing_numeric_type_manifest
      = .error .type_error :=
  ⟨rfl, by decide, rfl⟩

/-- Claim C9, at its failing inputs.  On the manifest whose `libraries` is
empty, and on the one whose `libraries` holds a package and an entry without
`type`, the scan leaves `project_node` empty, and line 156 reads
`project_node->first` of that empty optional before line 158 tests
`has_value()`: the identity of an absent project node is read, where the claim
says it never is. -/
theorem no_project_reads_empty_optional :
    build_tpa_list "/app/MyApp.deps.json" empty_libraries_manifest = .error .empty_optional ∧
    build_tpa_list "/app/MyApp.deps.json" no_project_manifest = .error .empty_optional :=
  ⟨rfl, rfl⟩

/-- Claim C7, as amended.  Whenever `build_tpa_list` returns, its trusted list
is the join of entries that are each the manifest's directory joined, as paths,
with a library key whose lowercase form ends in `.dll`; and when the manifest
path is absolute, every entry is absolute. -/
theorem trusted_entries_are_joined (depsFile : String) (deps : Json) (c : ctx)
    (h : build_tpa_list depsFile deps = .ok c) :
    ∃ keys : List String,
      c.tpa_list = join_paths (keys.map (path_append (parent_path depsFile))) ∧
      (∀ k ∈ keys, ends_with (lowercase k) ".dll" = true) ∧
      (is_absolute depsFile = true →
        ∀ k ∈ keys, is_absolute (path_append (parent_path depsFile) k) = true) := by
  obtain ⟨keys, hdll, hjoin⟩ := build_keys depsFile deps c h
  exact ⟨keys, hjoin, hdll, fun habs k _ =>
    path_append_absolute _ k (parent_path_absolute depsFile habs)⟩

/-- Claim C7, amended, at the manifest with two dependencies in `/app`. -/
theorem trusted_entries_are_joined_witness :
    ∃ keys : List String,
      "/app/MyApp.dll:/app/Foo.DLL"
        = join_paths (keys.map (path_append (parent_path "/app/MyApp.deps.json"))) ∧
      (∀ k ∈ keys, ends_with (lowercase k) ".dll" = true) ∧
      (is_absolute "/app/MyApp.deps.json" = true →
        ∀ k ∈ keys, is_absolute (path_append (parent_path "/app/MyApp.deps.json") k) = true) :=
  trusted_entries_are_joined "/app/MyApp.deps.json" two_dependencies_manifest
    ⟨"MyApp/1.0.0", "MyApp, Version=1.0.0", "/app/MyApp.dll:/app/Foo.DLL"⟩ rfl

/-- Claim C7 fails as stated: with the relative manifest paths
`MyApp.deps.json` and `bin/MyApp.deps.json` the Scenario manifest gives the
entries `MyApp.dll` and `bin/MyApp.dll`, which are not absolute. -/
theorem trusted_entries_are_joined_counterexample :
    build_tpa_list "MyApp.deps.json" scenario_manifest
      = .ok ⟨"MyApp/1.0.0", "MyApp, Version=1.0.0", "MyApp.dll"⟩ ∧
    is_absolute "MyApp.dll" = false ∧
    build_tpa_list "bin/MyApp.deps.json" scenario_manifest
      = .ok ⟨"MyApp/1.0.0", "MyApp, Version=1.0.0", "bin/MyApp.dll"⟩ ∧
    is_absolute "bin/MyApp.dll" = false :=
  ⟨rfl, rfl, rfl, rfl⟩

/-- Claim C10.  In a run of `run_something` that finds the class and its
`Create` and `Hello` methods, the calls are, on a thread other than the main
thread: attach, invoke `Create`, invoke `Hello` on the object that call
returned, detach of the attached thread, and the same four once more, with a
second attach and a second object; on the main thread they are the four
invocations alone.  The value returned is 0. -/
theorem run_something_protocol (rt : Runtime) (self main_thread : Nat)
    (kls create hello : Handle)
    (hk : rt.class_from_name "CSharpSample" "SampleClass" = some kls)
    (hc : rt.get_method kls "Create" = some create)
    (hh : rt.get_method kls "Hello" = some hello) :
    ∃ (t1 t2 : Handle) (o1 r1 o2 r2 : Option Handle),
      run_something rt self main_thread =
        (if self ≠ main_thread then
          [Call.attach t1, Call.invoke create none o1, Call.invoke hello o1 r1, Call.detach t1,
            Call.attach t2, Call.invoke create none o2, Call.invoke hello o2 r2, Call.detach t2]
        else
          [Call.invoke create none o1, Call.invoke hello o1 r1,
            Call.invoke create none o2, Call.invoke hello o2 r2], 0) := by
  by_cases hm : self = main_thread
  · simp only [run_something, hk, hc, hh, hm, ne_eq, not_true_eq_false, if_false,
      List.nil_append, List.cons_append]
    exact ⟨0, 0, _, _, _, _, rfl⟩
  · simp only [run_something, hk, hc, hh, hm, ne_eq, not_false_eq_true, if_true,
      List.nil_append, List.cons_append]
    exact ⟨_, _, _, _, _, _, rfl⟩

/-- Claim C10 at a runtime that finds the class and both methods, on thread 1
with main thread 0; and the traces of that runtime off and on the main thread. -/
theorem run_something_protocol_witness :
    (∃ (t1 t2 : Handle) (o1 r1 o2 r2 : Option Handle),
      run_something sample_runtime 1 0 =
        (if 1 ≠ 0 then
          [Call.attach t1, Call.invoke 2 none o1, Call.invoke 3 o1 r1, Call.detach t1,
            Call.attach t2, Call.invoke 2 none o2, Call.invoke 3 o2 r2, Call.detach t2]
        else
          [Call.invoke 2 none o1, Call.invoke 3 o1 r1,
            Call.invoke 2 none o2, Call.invoke 3 o2 r2], 0)) ∧
    run_something sample_runtime 1 0 =
      ([Call.attach 100, Call.invoke 2 none (some 201), Call.invoke 3 (some 201) (some 202),
        Call.detach 100, Call.attach 104, Call.invoke 2 none (some 205),
        Call.invoke 3 (some 205) (some 206), Call.detach 104], 0) ∧
    run_something sample_runtime 0 0 =
      ([Call.invoke 2 none (some 200), Call.invoke 3 (some 200) (some 201),
        Call.invoke 2 none (some 202), Call.invoke 3 (some 202) (some 203)], 0) :=
  ⟨run_something_protocol sample_runtime 1 0 1 2 3 rfl rfl rfl, rfl, rfl⟩

end MonoEmbed
